import Mathlib

/-!
# The pxlib bridge of NuevoGaleno (`src/3rdparty/pxlib/src/pxlib_bridge.c`)

A shallow embedding of the bridge functions that wrap the Paradox reading
library, and the properties of its null-handle guards, of its header
accessors and of the record release traversal.

Conventions of the embedding.

* A C pointer that may be `NULL` is an `Option`; `none` is `NULL`.  The pointee
  is carried by value together with its address (`addr`).
* The C type `int` is `Int`.  The only arithmetic the bridge does on an `int`
  is the loop counter of `pxlib_release_record`, which stays in
  `0 .. num_fields` and so never wraps.
* The bridge never stores through a pointer.  Everything it does to the
  outside is a call into the library (`PX_...`), a call of the document's
  deallocator (`doc->free`), or a read of an entry of the record array.
  Each of these is appended to a log, the `World`, which every bridge
  function receives and returns.
* The library itself (`paradox.h`, `paradox.c`) is not part of the sources at
  hand.  What its functions return and the values of its type tags are taken
  as a parameter, `PxLib`.
-/

namespace PxBridge

/-- Address of an allocation.  A nullable C pointer is an `Option Ptr`. -/
abbrev Ptr := Nat

/-- The three members of `pxhead_t` that the bridge reads. -/
structure PxHead where
  px_fileversion : Int
  px_headersize : Int
  px_doscodepage : Int
deriving DecidableEq, Repr

/-- A `pxdoc_t` as the bridge sees it: where it lives and its `px_head`
pointer (`none` when no header has been parsed). -/
structure PxDoc where
  addr : Ptr
  px_head : Option PxHead
deriving DecidableEq, Repr

/-- A `pxval_t`: where it lives, its `type` member, and what the member
`value.str.val` of its union reads as (`none` is `NULL`).  For a value of a
fixed-width type the union holds a number and `str_val` is whatever those
bytes read as when taken for a pointer. -/
structure PxVal where
  addr : Ptr
  type : Int
  str_val : Option Ptr
deriving DecidableEq, Repr

/-- A record, `pxval_t **`: the address of the array and its entries, each a
nullable pointer to a value. -/
structure Record where
  addr : Ptr
  entries : List (Option PxVal)
deriving DecidableEq, Repr

/-- What the bridge does to the outside, in the order it does it. -/
inductive Event where
  | PX_open_file (doc : PxDoc) (path : String)
  | PX_close (doc : PxDoc)
  | PX_delete (doc : PxDoc)
  | PX_get_num_records (doc : PxDoc)
  | PX_get_num_fields (doc : PxDoc)
  | PX_get_fields (doc : PxDoc)
  | PX_get_recordsize (doc : PxDoc)
  | PX_retrieve_record (doc : PxDoc) (recno : Int)
  | read_entry (record : Ptr) (i : Nat)
  | free (doc : PxDoc) (p : Ptr)
deriving DecidableEq, Repr

/-- The log of events so far, oldest first. -/
abbrev World := List Event

/-- A read of `record[i]` past the end of the array. -/
inductive Fault where
  | out_of_bounds (record : Ptr) (i : Nat)
deriving DecidableEq, Repr

/-- The library behind the bridge: the type tags named by the bridge and the
results of the library functions it calls. -/
structure PxLib where
  pxfAlpha : Int
  pxfMemoBLOb : Int
  pxfBLOb : Int
  pxfFmtMemoBLOb : Int
  pxfGraphic : Int
  pxfBytes : Int
  pxfBCD : Int
  PX_open_file : PxDoc → String → Int
  PX_get_num_records : PxDoc → Int
  PX_get_num_fields : PxDoc → Int
  PX_get_fields : PxDoc → Option Ptr
  PX_get_recordsize : PxDoc → Int
  PX_retrieve_record : PxDoc → Int → Option Record

/-- Source lines 8-13. -/
def pxlib_open_document (lib : PxLib) (doc : Option PxDoc) (path : Option String)
    (w : World) : Int × World :=
  match doc, path with
  | none, _ => (-1, w)
  | some _, none => (-1, w)
  | some d, some p => (lib.PX_open_file d p, w ++ [Event.PX_open_file d p])

/-- Source lines 15-21. -/
def pxlib_close_document (doc : Option PxDoc) (w : World) : World :=
  match doc with
  | none => w
  | some d => (w ++ [Event.PX_close d]) ++ [Event.PX_delete d]

/-- Source lines 23-28. -/
def pxlib_num_records (lib : PxLib) (doc : Option PxDoc) (w : World) : Int × World :=
  match doc with
  | none => (0, w)
  | some d => (lib.PX_get_num_records d, w ++ [Event.PX_get_num_records d])

/-- Source lines 30-35. -/
def pxlib_field_count (lib : PxLib) (doc : Option PxDoc) (w : World) : Int × World :=
  match doc with
  | none => (0, w)
  | some d => (lib.PX_get_num_fields d, w ++ [Event.PX_get_num_fields d])

/-- Source lines 37-42. -/
def pxlib_get_fields (lib : PxLib) (doc : Option PxDoc) (w : World) : Option Ptr × World :=
  match doc with
  | none => (none, w)
  | some d => (lib.PX_get_fields d, w ++ [Event.PX_get_fields d])

/-- Source lines 44-49. -/
def pxlib_record_size (lib : PxLib) (doc : Option PxDoc) (w : World) : Int × World :=
  match doc with
  | none => (0, w)
  | some d => (lib.PX_get_recordsize d, w ++ [Event.PX_get_recordsize d])

/-- Source lines 51-56. -/
def pxlib_file_version (doc : Option PxDoc) (w : World) : Int × World :=
  match doc with
  | none => (0, w)
  | some d =>
    match d.px_head with
    | none => (0, w)
    | some h => (h.px_fileversion, w)

/-- Source lines 58-63. -/
def pxlib_header_size (doc : Option PxDoc) (w : World) : Int × World :=
  match doc with
  | none => (0, w)
  | some d =>
    match d.px_head with
    | none => (0, w)
    | some h => (h.px_headersize, w)

/-- Source lines 65-70. -/
def pxlib_code_page (doc : Option PxDoc) (w : World) : Int × World :=
  match doc with
  | none => (0, w)
  | some d =>
    match d.px_head with
    | none => (0, w)
    | some h => (h.px_doscodepage, w)

/-- Source lines 72-77. -/
def pxlib_retrieve_record (lib : PxLib) (doc : Option PxDoc) (recno : Int) (w : World) :
    Option Record × World :=
  match doc with
  | none => (none, w)
  | some d => (lib.PX_retrieve_record d recno, w ++ [Event.PX_retrieve_record d recno])

/-- Source lines 79-95: the `switch` over `value->type`. -/
def pxlib_is_string_type (lib : PxLib) (value : Option PxVal) : Int :=
  match value with
  | none => 0
  | some v =>
    if v.type = lib.pxfAlpha ∨ v.type = lib.pxfMemoBLOb ∨ v.type = lib.pxfBLOb
        ∨ v.type = lib.pxfFmtMemoBLOb ∨ v.type = lib.pxfGraphic ∨ v.type = lib.pxfBytes
        ∨ v.type = lib.pxfBCD then 1
    else 0

/-- Modelled from the spec: `FREE_PXVAL(doc, value)` is defined in `paradox.h`,
which is not among the sources.  The spec's release traversal is "check each
field for variable-length payload, release it, then release" the field and at
last the container, all through the document's deallocator: the value
structure is handed to `doc->free`, one call. -/
def FREE_PXVAL (doc : PxDoc) (value : PxVal) (w : World) : World :=
  w ++ [Event.free doc value.addr]

/-- Source lines 102-111: the `for` loop of `pxlib_release_record`, entered
with the counter at `i`.  Reading `record[i]` past the end of the array is a
fault. -/
def release_loop (lib : PxLib) (doc : PxDoc) (record : Record) (num_fields : Int)
    (i : Nat) (w : World) : Except Fault World :=
  if (i : Int) < num_fields then
    match record.entries[i]? with
    | none => Except.error (Fault.out_of_bounds record.addr i)
    | some value =>
      let w1 := w ++ [Event.read_entry record.addr i]
      match value with
      | none => release_loop lib doc record num_fields (i + 1) w1
      | some v =>
        let w2 :=
          if pxlib_is_string_type lib (some v) ≠ 0 then
            match v.str_val with
            | some p => w1 ++ [Event.free doc p]
            | none => w1
          else w1
        release_loop lib doc record num_fields (i + 1) (FREE_PXVAL doc v w2)
  else Except.ok w
termination_by (num_fields - (i : Int)).toNat
decreasing_by all_goals omega

/-- Source lines 97-113. -/
def pxlib_release_record (lib : PxLib) (doc : Option PxDoc) (record : Option Record)
    (w : World) : Except Fault World :=
  match doc, record with
  | none, _ => Except.ok w
  | some _, none => Except.ok w
  | some d, some r =>
    let num_fields := lib.PX_get_num_fields d
    match release_loop lib d r num_fields 0 (w ++ [Event.PX_get_num_fields d]) with
    | Except.error e => Except.error e
    | Except.ok w1 => Except.ok (w1 ++ [Event.free d r.addr])

/-! ## Reading the log -/

/-- The pointer handed to the deallocator by an event, if it is a free. -/
def free_target : Event → Option Ptr
  | Event.free _ p => some p
  | _ => none

/-- The pointers freed in a log, in the order they were freed. -/
def frees (evs : List Event) : List Ptr := evs.filterMap free_target

/-- The index read by an event, if it is a read of a record entry. -/
def read_index : Event → Option Nat
  | Event.read_entry _ i => some i
  | _ => none

/-- The record indices read in a log, in the order they were read. -/
def reads (evs : List Event) : List Nat := evs.filterMap read_index

/-! ## What a release is expected to do, stated without the loop -/

/-- The seven type tags of values that carry a variable-length payload:
alpha, memo blob, blob, formatted-memo blob, graphic, bytes and BCD. -/
def variable_length_tags (lib : PxLib) : List Int :=
  [lib.pxfAlpha, lib.pxfMemoBLOb, lib.pxfBLOb, lib.pxfFmtMemoBLOb, lib.pxfGraphic,
    lib.pxfBytes, lib.pxfBCD]

/-- The payload buffer a value owns: its `value.str.val` when the value is of
a variable-length type, nothing otherwise. -/
def payload (lib : PxLib) (v : PxVal) : Option Ptr :=
  if v.type ∈ variable_length_tags lib then v.str_val else none

/-- The frees one record entry calls for: nothing for a null entry, else the
payload (if any) and right after it the value. -/
def field_frees (lib : PxLib) : Option PxVal → List Ptr
  | none => []
  | some v => (payload lib v).toList ++ [v.addr]

/-- The events of one pass through the loop body at index `i`, the entry
there being `e`. -/
def field_events (lib : PxLib) (doc : PxDoc) (record : Ptr) (i : Nat) (e : Option PxVal) :
    List Event :=
  Event.read_entry record i :: (field_frees lib e).map (Event.free doc)

/-- The events of the passes over the entries `es`, the first of which is at
index `i`. -/
def events_from (lib : PxLib) (doc : PxDoc) (record : Ptr) : Nat → List (Option PxVal) → List Event
  | _, [] => []
  | i, e :: es => field_events lib doc record i e ++ events_from lib doc record (i + 1) es

/-- The non-null values among the first `n` entries of a record. -/
def values (n : Nat) (record : Record) : List PxVal := (record.entries.take n).reduceOption

/-- The allocations a record of `n` fields owns: the container, every
non-null value, and every non-null payload buffer of a value of a
variable-length type. -/
def owned (lib : PxLib) (n : Nat) (record : Record) : List Ptr :=
  record.addr :: ((values n record).map PxVal.addr ++ (values n record).filterMap (payload lib))

/-- Modelled from the spec: `PX_retrieve_record` lives in the library's
`paradox.c`, which is not among the sources.  The spec's record locator
"fails with `OutOfRange` when `record_number` is outside `[0, num_records)`":
a library whose retrieval returns `NULL` for a record number below zero or
not below the number of records it reports, and inside the range does what
`lib` does. -/
def range_checked (lib : PxLib) : PxLib :=
  { lib with
    PX_retrieve_record := fun d recno =>
      if recno < 0 ∨ lib.PX_get_num_records d ≤ recno then none
      else lib.PX_retrieve_record d recno }

/-- A record of three entries: a value of tag 1 (alpha in the sample library)
with a payload, a null entry, and a value of tag 4 (none of the seven
variable-length tags of the sample library) whose union reads as a non-null
pointer. -/
def sample_record : Record :=
  { addr := 200,
    entries := [some { addr := 201, type := 1, str_val := some 301 }, none,
      some { addr := 203, type := 4, str_val := some 42 }] }

/-- A library for trying things out: seven distinct tag values, every
document has three fields and five records, and every retrieval yields the
sample record. -/
def sample_lib : PxLib :=
  { pxfAlpha := 1, pxfMemoBLOb := 12, pxfBLOb := 13, pxfFmtMemoBLOb := 14,
    pxfGraphic := 16, pxfBytes := 24, pxfBCD := 23,
    PX_open_file := fun _ _ => 0,
    PX_get_num_records := fun _ => 5,
    PX_get_num_fields := fun _ => 3,
    PX_get_fields := fun _ => some 500,
    PX_get_recordsize := fun _ => 20,
    PX_retrieve_record := fun _ _ => some sample_record }

/-- A document with a parsed header. -/
def sample_doc : PxDoc :=
  { addr := 100, px_head := some { px_fileversion := 70, px_headersize := 2048, px_doscodepage := 437 } }

/-- Calling `pxlib_release_record` with the same arguments `n` times in a
row, each call starting from the log the one before left; a fault ends the
run. -/
def release_times (lib : PxLib) (doc : Option PxDoc) (record : Option Record) :
    Nat → World → Except Fault World
  | 0, w => Except.ok w
  | n + 1, w =>
    match pxlib_release_record lib doc record w with
    | Except.error e => Except.error e
    | Except.ok w1 => release_times lib doc record n w1

/-- The sample library, but reporting a negative field count. -/
def sample_lib_neg : PxLib :=
  { sample_lib with PX_get_num_fields := fun _ => -4 }

/-! ## Lemmas on the log -/

theorem frees_append (a b : List Event) : frees (a ++ b) = frees a ++ frees b := by
  simp [frees, List.filterMap_append]

theorem reads_append (a b : List Event) : reads (a ++ b) = reads a ++ reads b := by
  simp [reads, List.filterMap_append]

theorem frees_map_free (doc : PxDoc) (ps : List Ptr) : frees (ps.map (Event.free doc)) = ps := by
  induction ps with
  | nil => rfl
  | cons p ps ih =>
    simp only [frees] at ih
    simp [frees, free_target, ih]

theorem reads_map_free (doc : PxDoc) (ps : List Ptr) : reads (ps.map (Event.free doc)) = [] := by
  induction ps with
  | nil => rfl
  | cons p ps ih =>
    simp only [reads] at ih
    simp [reads, read_index, ih]

theorem frees_events_from (lib : PxLib) (doc : PxDoc) (ra : Ptr) (es : List (Option PxVal)) :
    ∀ i : Nat, frees (events_from lib doc ra i es) = es.flatMap (field_frees lib) := by
  induction es with
  | nil => intro i; rfl
  | cons e es ih =>
    intro i
    have h1 : frees (field_events lib doc ra i e) = field_frees lib e := by
      have := frees_map_free doc (field_frees lib e)
      simp only [frees] at this
      simp [field_events, frees, free_target, this]
    simp [events_from, frees_append, ih, h1]

theorem reads_events_from (lib : PxLib) (doc : PxDoc) (ra : Ptr) (es : List (Option PxVal)) :
    ∀ i : Nat, reads (events_from lib doc ra i es) = List.range' i es.length := by
  induction es with
  | nil => intro i; rfl
  | cons e es ih =>
    intro i
    have h1 : reads (field_events lib doc ra i e) = [i] := by
      have := reads_map_free doc (field_frees lib e)
      simp only [reads] at this
      simp [field_events, reads, read_index, this]
    simp [events_from, reads_append, ih, h1, List.range'_succ]

/-! ## The switch and the loop -/

theorem is_string_type_some (lib : PxLib) (v : PxVal) :
    pxlib_is_string_type lib (some v) = if v.type ∈ variable_length_tags lib then 1 else 0 := by
  simp [pxlib_is_string_type, variable_length_tags]

theorem release_loop_ok (lib : PxLib) (doc : PxDoc) (record : Record) (num_fields : Int)
    (hlen : num_fields ≤ (record.entries.length : Int)) :
    ∀ (k i : Nat) (w : World), i + k = num_fields.toNat →
      release_loop lib doc record num_fields i w
        = Except.ok (w ++ events_from lib doc record.addr i ((record.entries.drop i).take k)) := by
  intro k
  induction k with
  | zero =>
    intro i w h
    rw [release_loop]
    have hc : ¬ ((i : Int) < num_fields) := by omega
    simp [hc, events_from]
  | succ k ih =>
    intro i w h
    rw [release_loop]
    have hc : (i : Int) < num_fields := by omega
    have hi : i < record.entries.length := by omega
    have hd : record.entries.drop i = record.entries[i] :: record.entries.drop (i + 1) :=
      List.drop_eq_getElem_cons hi
    rw [if_pos hc, List.getElem?_eq_getElem hi, hd, List.take_succ_cons]
    cases hv : record.entries[i] with
    | none =>
      simp only []
      rw [ih (i + 1) _ (by omega)]
      simp [events_from, field_events, field_frees]
    | some v =>
      simp only []
      rw [ih (i + 1) _ (by omega), is_string_type_some]
      by_cases ht : v.type ∈ variable_length_tags lib
      · cases hp : v.str_val with
        | none => simp [events_from, field_events, field_frees, payload, ht, hp, FREE_PXVAL]
        | some p => simp [events_from, field_events, field_frees, payload, ht, hp, FREE_PXVAL]
      · simp [events_from, field_events, field_frees, payload, ht, FREE_PXVAL]

theorem release_record_ok (lib : PxLib) (d : PxDoc) (r : Record) (w : World)
    (hlen : lib.PX_get_num_fields d ≤ (r.entries.length : Int)) :
    pxlib_release_record lib (some d) (some r) w
      = Except.ok (w ++ (Event.PX_get_num_fields d
          :: (events_from lib d r.addr 0 (r.entries.take (lib.PX_get_num_fields d).toNat)
            ++ [Event.free d r.addr]))) := by
  have h := release_loop_ok lib d r (lib.PX_get_num_fields d) hlen
    (lib.PX_get_num_fields d).toNat 0 (w ++ [Event.PX_get_num_fields d]) (by omega)
  simp [pxlib_release_record, h]

theorem release_loop_fault (lib : PxLib) (doc : PxDoc) (record : Record) (num_fields : Int)
    (hlen : (record.entries.length : Int) < num_fields) :
    ∀ (k i : Nat) (w : World), i + k = record.entries.length →
      release_loop lib doc record num_fields i w
        = Except.error (Fault.out_of_bounds record.addr record.entries.length) := by
  intro k
  induction k with
  | zero =>
    intro i w h
    rw [release_loop]
    have hc : (i : Int) < num_fields := by omega
    have hn : record.entries[i]? = none := List.getElem?_eq_none (by omega)
    have hi : i = record.entries.length := by omega
    rw [if_pos hc, hn]
    simp [hi]
  | succ k ih =>
    intro i w h
    rw [release_loop]
    have hc : (i : Int) < num_fields := by omega
    have hi : i < record.entries.length := by omega
    rw [if_pos hc, List.getElem?_eq_getElem hi]
    cases hv : record.entries[i] with
    | none =>
      simp only []
      exact ih (i + 1) _ (by omega)
    | some v =>
      simp only []
      exact ih (i + 1) _ (by omega)

/-- A record with fewer entries than the document's field count is read past
its end: the release faults at the first index outside the array, before the
container is freed. -/
theorem release_record_short (lib : PxLib) (d : PxDoc) (r : Record) (w : World)
    (hlen : (r.entries.length : Int) < lib.PX_get_num_fields d) :
    pxlib_release_record lib (some d) (some r) w
      = Except.error (Fault.out_of_bounds r.addr r.entries.length) := by
  have h := release_loop_fault lib d r (lib.PX_get_num_fields d) hlen
    r.entries.length 0 (w ++ [Event.PX_get_num_fields d]) (by omega)
  simp [pxlib_release_record, h]

theorem frees_release_events (lib : PxLib) (d : PxDoc) (ra : Ptr) (es : List (Option PxVal)) :
    frees (Event.PX_get_num_fields d :: (events_from lib d ra 0 es ++ [Event.free d ra]))
      = es.flatMap (field_frees lib) ++ [ra] := by
  have h := frees_append (events_from lib d ra 0 es) [Event.free d ra]
  have h2 := frees_events_from lib d ra es 0
  simp only [frees] at h h2 ⊢
  rw [List.filterMap_cons]
  simp [free_target, h, h2]

theorem reads_release_events (lib : PxLib) (d : PxDoc) (ra : Ptr) (es : List (Option PxVal)) :
    reads (Event.PX_get_num_fields d :: (events_from lib d ra 0 es ++ [Event.free d ra]))
      = List.range es.length := by
  have h := reads_append (events_from lib d ra 0 es) [Event.free d ra]
  have h2 := reads_events_from lib d ra es 0
  simp only [reads] at h h2 ⊢
  rw [List.filterMap_cons]
  simp [read_index, h, h2, List.range_eq_range']

theorem field_frees_perm (lib : PxLib) (l : List (Option PxVal)) :
    (l.flatMap (field_frees lib)).Perm
      (l.reduceOption.map PxVal.addr ++ l.reduceOption.filterMap (payload lib)) := by
  rw [List.perm_iff_count]
  intro a
  induction l with
  | nil => simp
  | cons e l ih =>
    cases e with
    | none => simpa [List.reduceOption_cons_of_none, field_frees] using ih
    | some v =>
      rw [List.reduceOption_cons_of_some, List.flatMap_cons]
      simp only [List.count_append, List.map_cons, List.count_cons] at ih ⊢
      cases hp : payload lib v with
      | none =>
        simp only [field_frees, hp, Option.toList, List.nil_append, List.count_cons,
          List.count_nil, List.filterMap_cons]
        omega
      | some p =>
        simp only [field_frees, hp, Option.toList, List.count_append, List.count_cons,
          List.count_nil, List.filterMap_cons]
        omega

theorem flatMap_split {α β : Type} (f : α → List β) (l : List α) (i : Nat) (e : α)
    (h : l[i]? = some e) :
    l.flatMap f = (l.take i).flatMap f ++ f e ++ (l.drop (i + 1)).flatMap f := by
  have hi : i < l.length := by
    rcases Nat.lt_or_ge i l.length with h1 | h1
    · exact h1
    · rw [List.getElem?_eq_none h1] at h; cases h
  have he : l[i] = e := by
    rw [List.getElem?_eq_getElem hi] at h
    exact Option.some.inj h
  have hl : l = l.take i ++ (e :: l.drop (i + 1)) := by
    conv_lhs => rw [← List.take_append_drop i l, List.drop_eq_getElem_cons hi, he]
  conv_lhs => rw [hl]
  simp [List.flatMap_append, List.flatMap_cons, List.append_assoc]

/-! ## Null handles, open and close -/

/-- C1: for a null document handle every query returns its neutral failure
value and leaves the log as it was, so no library call is made:
`pxlib_num_records`, `pxlib_field_count`, `pxlib_record_size`,
`pxlib_file_version`, `pxlib_header_size` and `pxlib_code_page` return 0, and
`pxlib_get_fields` and `pxlib_retrieve_record`, for every record number,
return null. -/
theorem null_handle_queries (lib : PxLib) (w : World) :
    pxlib_num_records lib none w = (0, w)
    ∧ pxlib_field_count lib none w = (0, w)
    ∧ pxlib_record_size lib none w = (0, w)
    ∧ pxlib_file_version none w = (0, w)
    ∧ pxlib_header_size none w = (0, w)
    ∧ pxlib_code_page none w = (0, w)
    ∧ pxlib_get_fields lib none w = (none, w)
    ∧ ∀ recno : Int, pxlib_retrieve_record lib none recno w = (none, w) :=
  ⟨rfl, rfl, rfl, rfl, rfl, rfl, rfl, fun _ => rfl⟩

/-- C2: `pxlib_open_document` returns -1 and leaves the log as it was (the
underlying open is not called) when the document is null, whatever the path,
and when the path is null, whatever the document; for a non-null document
and a non-null path it returns what `PX_open_file (doc, path)` returns and
adds that one call, and nothing else, to the log. -/
theorem open_document_guard (lib : PxLib) (w : World) :
    (∀ path : Option String, pxlib_open_document lib none path w = (-1, w))
    ∧ (∀ doc : Option PxDoc, pxlib_open_document lib doc none w = (-1, w))
    ∧ (∀ (d : PxDoc) (p : String),
        pxlib_open_document lib (some d) (some p) w
          = (lib.PX_open_file d p, w ++ [Event.PX_open_file d p])) := by
  refine ⟨fun _ => rfl, fun doc => ?_, fun _ _ => rfl⟩
  cases doc <;> rfl

/-- C3: on null input the void operations do nothing: closing a null
document leaves the log as it was, and so does releasing when the document is
null (whatever the record) or the record is null (whatever the document), so
that no free is issued; repeating any of these calls any number of times
leaves the log as it was. -/
theorem void_ops_null (lib : PxLib) (w : World) :
    pxlib_close_document none w = w
    ∧ (∀ record : Option Record, pxlib_release_record lib none record w = Except.ok w)
    ∧ (∀ doc : Option PxDoc, pxlib_release_record lib doc none w = Except.ok w)
    ∧ (∀ n : Nat, (pxlib_close_document none)^[n] w = w)
    ∧ (∀ (n : Nat) (record : Option Record), release_times lib none record n w = Except.ok w)
    ∧ (∀ (n : Nat) (doc : Option PxDoc), release_times lib doc none n w = Except.ok w) := by
  have hdoc : ∀ doc : Option PxDoc, pxlib_release_record lib doc none w = Except.ok w := by
    intro doc
    cases doc <;> rfl
  refine ⟨rfl, fun _ => rfl, hdoc, ?_, ?_, ?_⟩
  · intro n
    exact Function.iterate_fixed rfl n
  · intro n record
    induction n with
    | zero => rfl
    | succ n ih => simpa [release_times, pxlib_release_record] using ih
  · intro n doc
    induction n with
    | zero => rfl
    | succ n ih => simpa [release_times, hdoc doc] using ih

/-- C9: for a non-null document `pxlib_close_document` adds to the log
exactly the call `PX_close` on that document followed by the call `PX_delete`
on it: each once, the close before the delete. -/
theorem close_document_calls (d : PxDoc) (w : World) :
    pxlib_close_document (some d) w = w ++ [Event.PX_close d, Event.PX_delete d] := by
  simp [pxlib_close_document]

/-- C7: for a non-null document, `pxlib_file_version`, `pxlib_header_size`
and `pxlib_code_page` return 0 when `px_head` is null and otherwise the
header's `px_fileversion`, `px_headersize` and `px_doscodepage`; in both cases
the log is left as it was: nothing is called that could change the document
or its header. -/
theorem header_accessors (addr : Ptr) (w : World) :
    pxlib_file_version (some { addr := addr, px_head := none }) w = (0, w)
    ∧ pxlib_header_size (some { addr := addr, px_head := none }) w = (0, w)
    ∧ pxlib_code_page (some { addr := addr, px_head := none }) w = (0, w)
    ∧ ∀ h : PxHead,
        pxlib_file_version (some { addr := addr, px_head := some h }) w = (h.px_fileversion, w)
        ∧ pxlib_header_size (some { addr := addr, px_head := some h }) w = (h.px_headersize, w)
        ∧ pxlib_code_page (some { addr := addr, px_head := some h }) w = (h.px_doscodepage, w) :=
  ⟨rfl, rfl, rfl, fun _ => ⟨rfl, rfl, rfl⟩⟩

/-! ## Releasing a record -/

/-- C4: for a non-null document and a non-null record with at least
`field_count` entries, `pxlib_release_record` completes; it reads the entries
in index order `0 .. field_count - 1`; the frees it issues are, field by field
in index order, the field's payload (if any) immediately followed by the
field's value, and after all fields the container, which is the last free. -/
theorem release_record_order (lib : PxLib) (d : PxDoc) (r : Record) (w : World)
    (h : lib.PX_get_num_fields d ≤ (r.entries.length : Int)) :
    ∃ evs : List Event,
      pxlib_release_record lib (some d) (some r) w = Except.ok (w ++ evs)
      ∧ evs = Event.PX_get_num_fields d
          :: (events_from lib d r.addr 0 (r.entries.take (lib.PX_get_num_fields d).toNat)
            ++ [Event.free d r.addr])
      ∧ reads evs = List.range (lib.PX_get_num_fields d).toNat
      ∧ frees evs
          = (r.entries.take (lib.PX_get_num_fields d).toNat).flatMap (field_frees lib) ++ [r.addr]
      ∧ (frees evs).getLast? = some r.addr
      ∧ ∀ (i : Nat) (v : PxVal), i < (lib.PX_get_num_fields d).toNat →
          r.entries[i]? = some (some v) →
          frees evs
            = (r.entries.take i).flatMap (field_frees lib)
              ++ ((payload lib v).toList ++ [v.addr])
              ++ ((r.entries.take (lib.PX_get_num_fields d).toNat).drop (i + 1)).flatMap
                  (field_frees lib)
              ++ [r.addr] := by
  refine ⟨_, release_record_ok lib d r w h, rfl, ?_, frees_release_events _ _ _ _, ?_, ?_⟩
  · rw [reads_release_events, List.length_take]
    congr 1
    omega
  · rw [frees_release_events, List.getLast?_concat]
  · intro i v hi hv
    have hget : (r.entries.take (lib.PX_get_num_fields d).toNat)[i]? = some (some v) := by
      rw [List.getElem?_take, if_pos hi, hv]
    have htake : (r.entries.take (lib.PX_get_num_fields d).toNat).take i = r.entries.take i := by
      rw [List.take_take, Nat.min_eq_left (Nat.le_of_lt hi)]
    rw [frees_release_events, flatMap_split (field_frees lib) _ i (some v) hget, htake]
    rfl

/-- C5: for a non-null document with `n = field_count` and a record of `n`
entries, `pxlib_release_record` completes and its frees are a rearrangement
of the allocations the record owns (the container, every non-null value,
every non-null payload of a value of a variable-length type): there are
`1 + (non-null values) + (non-null payloads)` frees, every pointer is freed
as often as the record owns it, so when the owned allocations are distinct
each is freed exactly once and no pointer twice; a value is freed wherever it
stands in the record, null entries before it notwithstanding. -/
theorem release_record_no_leak (lib : PxLib) (d : PxDoc) (r : Record) (w : World)
    (h : (r.entries.length : Int) = lib.PX_get_num_fields d) :
    ∃ evs : List Event,
      pxlib_release_record lib (some d) (some r) w = Except.ok (w ++ evs)
      ∧ (frees evs).length
          = 1 + (values r.entries.length r).length
            + ((values r.entries.length r).filterMap (payload lib)).length
      ∧ (frees evs).Perm (owned lib r.entries.length r)
      ∧ (∀ p : Ptr, (frees evs).count p = (owned lib r.entries.length r).count p)
      ∧ ((owned lib r.entries.length r).Nodup →
          (frees evs).Nodup ∧ ∀ p ∈ owned lib r.entries.length r, (frees evs).count p = 1)
      ∧ ∀ (i : Nat) (v : PxVal), r.entries[i]? = some (some v) →
          v.addr ∈ frees evs ∧ ∀ p : Ptr, payload lib v = some p → p ∈ frees evs := by
  have hn : (lib.PX_get_num_fields d).toNat = r.entries.length := by omega
  have hperm : (r.entries.flatMap (field_frees lib) ++ [r.addr]).Perm
      (owned lib r.entries.length r) := by
    have h1 := field_frees_perm lib r.entries
    have h2 : (r.entries.flatMap (field_frees lib) ++ [r.addr]).Perm
        (r.addr :: r.entries.flatMap (field_frees lib)) := List.perm_append_comm
    refine h2.trans ?_
    simp only [owned, values, List.take_length]
    exact List.Perm.cons _ h1
  refine ⟨_, release_record_ok lib d r w (le_of_eq h.symm), ?_⟩
  rw [frees_release_events, hn, List.take_length]
  refine ⟨?_, hperm, fun p => hperm.count_eq p, ?_, ?_⟩
  · rw [hperm.length_eq]
    simp only [owned, List.length_cons, List.length_append, List.length_map]
    omega
  · intro hnd
    have hfn := hperm.nodup_iff.mpr hnd
    exact ⟨hfn, fun p hp => List.count_eq_one_of_mem hfn (hperm.mem_iff.mpr hp)⟩
  · intro i v hv
    have hs := flatMap_split (field_frees lib) r.entries i (some v) hv
    rw [hs]
    refine ⟨by simp [field_frees], fun p hp => ?_⟩
    simp [field_frees, hp]

/-- C10: when the record has at least `field_count` entries,
`pxlib_release_record` completes without a read out of bounds; the entries it
reads are those at the indices `0 .. field_count - 1`, each once and in that
order, all of them inside the array, and no other; when `field_count` is
zero or negative it reads no entry and frees only the container. -/
theorem release_record_reads (lib : PxLib) (d : PxDoc) (r : Record) (w : World)
    (h : lib.PX_get_num_fields d ≤ (r.entries.length : Int)) :
    ∃ evs : List Event,
      pxlib_release_record lib (some d) (some r) w = Except.ok (w ++ evs)
      ∧ reads evs = List.range (lib.PX_get_num_fields d).toNat
      ∧ (∀ i : Nat, i ∈ reads evs ↔ (i : Int) < lib.PX_get_num_fields d)
      ∧ (∀ i ∈ reads evs, i < r.entries.length)
      ∧ (lib.PX_get_num_fields d ≤ 0 →
          evs = [Event.PX_get_num_fields d, Event.free d r.addr]
          ∧ reads evs = [] ∧ frees evs = [r.addr]) := by
  have hr : reads (Event.PX_get_num_fields d
        :: (events_from lib d r.addr 0 (r.entries.take (lib.PX_get_num_fields d).toNat)
          ++ [Event.free d r.addr])) = List.range (lib.PX_get_num_fields d).toNat := by
    rw [reads_release_events, List.length_take]
    congr 1
    omega
  refine ⟨_, release_record_ok lib d r w h, hr, ?_, ?_, ?_⟩
  · intro i
    rw [hr, List.mem_range]
    omega
  · intro i hi
    rw [hr, List.mem_range] at hi
    omega
  · intro h0
    have hz : (lib.PX_get_num_fields d).toNat = 0 := by omega
    rw [hz]
    simp [events_from, reads, frees, read_index, free_target]

/-! ## The variable-length type tags -/

/-- C8: `pxlib_is_string_type` returns 0 for a null value, returns 1 for a
value whose type tag is one of alpha, memo blob, blob, formatted-memo blob,
graphic, bytes or BCD and for no other, and returns 0 for every other tag; so
every pointer a release frees is the container, a value of the record, or
the `str.val` of a value whose tag is one of those seven, never a pointer
taken from the union of a value of another type. -/
theorem is_string_type_tags (lib : PxLib) :
    pxlib_is_string_type lib none = 0
    ∧ (∀ v : PxVal, pxlib_is_string_type lib (some v) = 1 ↔
        (v.type = lib.pxfAlpha ∨ v.type = lib.pxfMemoBLOb ∨ v.type = lib.pxfBLOb
          ∨ v.type = lib.pxfFmtMemoBLOb ∨ v.type = lib.pxfGraphic ∨ v.type = lib.pxfBytes
          ∨ v.type = lib.pxfBCD))
    ∧ (∀ v : PxVal, pxlib_is_string_type lib (some v) = 0 ↔
        ¬ (v.type = lib.pxfAlpha ∨ v.type = lib.pxfMemoBLOb ∨ v.type = lib.pxfBLOb
          ∨ v.type = lib.pxfFmtMemoBLOb ∨ v.type = lib.pxfGraphic ∨ v.type = lib.pxfBytes
          ∨ v.type = lib.pxfBCD))
    ∧ ∀ (d : PxDoc) (r : Record) (w : World),
        lib.PX_get_num_fields d ≤ (r.entries.length : Int) →
        ∃ evs : List Event,
          pxlib_release_record lib (some d) (some r) w = Except.ok (w ++ evs)
          ∧ ∀ p ∈ frees evs,
              p = r.addr
              ∨ ∃ v : PxVal, some v ∈ r.entries.take (lib.PX_get_num_fields d).toNat
                  ∧ (p = v.addr
                    ∨ (v.str_val = some p
                      ∧ (v.type = lib.pxfAlpha ∨ v.type = lib.pxfMemoBLOb
                        ∨ v.type = lib.pxfBLOb ∨ v.type = lib.pxfFmtMemoBLOb
                        ∨ v.type = lib.pxfGraphic ∨ v.type = lib.pxfBytes
                        ∨ v.type = lib.pxfBCD))) := by
  refine ⟨rfl, ?_, ?_, ?_⟩
  · intro v
    by_cases hv : (v.type = lib.pxfAlpha ∨ v.type = lib.pxfMemoBLOb ∨ v.type = lib.pxfBLOb
          ∨ v.type = lib.pxfFmtMemoBLOb ∨ v.type = lib.pxfGraphic ∨ v.type = lib.pxfBytes
          ∨ v.type = lib.pxfBCD)
    · simp [pxlib_is_string_type, hv]
    · simp [pxlib_is_string_type, hv]
  · intro v
    by_cases hv : (v.type = lib.pxfAlpha ∨ v.type = lib.pxfMemoBLOb ∨ v.type = lib.pxfBLOb
          ∨ v.type = lib.pxfFmtMemoBLOb ∨ v.type = lib.pxfGraphic ∨ v.type = lib.pxfBytes
          ∨ v.type = lib.pxfBCD)
    · simp [pxlib_is_string_type, hv]
    · simp [pxlib_is_string_type, hv]
  · intro d r w h
    refine ⟨_, release_record_ok lib d r w h, ?_⟩
    intro p hp
    rw [frees_release_events, List.mem_append] at hp
    rcases hp with hp | hp
    · right
      rw [List.mem_flatMap] at hp
      obtain ⟨e, he, hpe⟩ := hp
      cases e with
      | none => simp [field_frees] at hpe
      | some v =>
        refine ⟨v, he, ?_⟩
        simp only [field_frees, List.mem_append, List.mem_singleton, Option.mem_toList] at hpe
        rcases hpe with hpe | hpe
        · right
          by_cases ht : v.type ∈ variable_length_tags lib
          · have hpe2 : v.str_val = some p := by simpa [payload, ht] using hpe
            refine ⟨hpe2, ?_⟩
            simpa [variable_length_tags] using ht
          · simp [payload, ht] at hpe
        · exact Or.inl hpe
    · left
      simpa using hp

/-! ## Record numbers out of range -/

/-- C6: with a library whose retrieval rejects record numbers outside
`[0, num_records)`, for every open document `pxlib_retrieve_record` returns
null at record number -1, at record number `num_records (doc)`, and at every
record number below zero or not below `num_records (doc)`. -/
theorem retrieve_record_out_of_range (lib : PxLib) (d : PxDoc) (w : World) :
    (pxlib_retrieve_record (range_checked lib) (some d) (-1) w).1 = none
    ∧ (pxlib_retrieve_record (range_checked lib) (some d)
        (pxlib_num_records (range_checked lib) (some d) w).1 w).1 = none
    ∧ ∀ recno : Int,
        (recno < 0 ∨ (pxlib_num_records (range_checked lib) (some d) w).1 ≤ recno) →
        (pxlib_retrieve_record (range_checked lib) (some d) recno w).1 = none := by
  refine ⟨?_, ?_, ?_⟩
  · simp [pxlib_retrieve_record, range_checked]
  · simp [pxlib_retrieve_record, pxlib_num_records, range_checked]
  · intro recno hr
    simp only [pxlib_num_records, range_checked] at hr
    simp [pxlib_retrieve_record, range_checked, hr]

/-! ## The theorems at the sample document and record -/

/-- The sample record has as many entries as the sample library reports
fields; releasing it reads the entries 0, 1, 2 and frees the payload 301, the
value 201, the value 203 and then the container 200. -/
theorem release_record_order_witness :
    sample_lib.PX_get_num_fields sample_doc ≤ (sample_record.entries.length : Int)
    ∧ ∃ evs : List Event,
        pxlib_release_record sample_lib (some sample_doc) (some sample_record) [] = Except.ok evs
        ∧ reads evs = [0, 1, 2] ∧ frees evs = [301, 201, 203, 200] := by
  refine ⟨by decide, ?_⟩
  obtain ⟨evs, h1, _, h3, h4, _, _⟩ :=
    release_record_order sample_lib sample_doc sample_record [] (by decide)
  refine ⟨evs, by simpa using h1, ?_, ?_⟩
  · rw [h3]; decide
  · rw [h4]; decide

/-- Releasing the sample record issues four frees, no pointer twice. -/
theorem release_record_no_leak_witness :
    (sample_record.entries.length : Int) = sample_lib.PX_get_num_fields sample_doc
    ∧ ∃ evs : List Event,
        pxlib_release_record sample_lib (some sample_doc) (some sample_record) [] = Except.ok evs
        ∧ (frees evs).length = 4 ∧ (frees evs).Nodup := by
  refine ⟨by decide, ?_⟩
  obtain ⟨evs, h1, h2, _, _, h5, _⟩ :=
    release_record_no_leak sample_lib sample_doc sample_record [] (by decide)
  refine ⟨evs, by simpa using h1, ?_, (h5 (by decide)).1⟩
  rw [h2]; decide

/-- With three fields the sample record is read at 0, 1, 2; with a negative
field count nothing is read and the container alone is freed. -/
theorem release_record_reads_witness :
    (sample_lib.PX_get_num_fields sample_doc ≤ (sample_record.entries.length : Int)
      ∧ ∃ evs : List Event,
          pxlib_release_record sample_lib (some sample_doc) (some sample_record) []
            = Except.ok evs
          ∧ reads evs = [0, 1, 2])
    ∧ (sample_lib_neg.PX_get_num_fields sample_doc ≤ (sample_record.entries.length : Int)
      ∧ pxlib_release_record sample_lib_neg (some sample_doc) (some sample_record) []
          = Except.ok [Event.PX_get_num_fields sample_doc, Event.free sample_doc 200]) := by
  refine ⟨⟨by decide, ?_⟩, ⟨by decide, ?_⟩⟩
  · obtain ⟨evs, h1, h2, _⟩ :=
      release_record_reads sample_lib sample_doc sample_record [] (by decide)
    refine ⟨evs, by simpa using h1, ?_⟩
    rw [h2]; decide
  · obtain ⟨evs, h1, _, _, _, h5⟩ :=
      release_record_reads sample_lib_neg sample_doc sample_record [] (by decide)
    rw [h1, (h5 (by decide)).1]
    rfl

/-- The third entry of the sample record has a tag outside the seven and a
union that reads as the pointer 42: releasing the record does not free 42. -/
theorem is_string_type_tags_witness :
    sample_lib.PX_get_num_fields sample_doc ≤ (sample_record.entries.length : Int)
    ∧ pxlib_is_string_type sample_lib (some { addr := 203, type := 4, str_val := some 42 }) = 0
    ∧ pxlib_is_string_type sample_lib (some { addr := 201, type := 1, str_val := some 301 }) = 1
    ∧ ∃ evs : List Event,
        pxlib_release_record sample_lib (some sample_doc) (some sample_record) [] = Except.ok evs
        ∧ 42 ∉ frees evs := by
  refine ⟨by decide, by decide, by decide, ?_⟩
  obtain ⟨evs, h1, h2⟩ :=
    (is_string_type_tags sample_lib).2.2.2 sample_doc sample_record [] (by decide)
  refine ⟨evs, by simpa using h1, fun hmem => ?_⟩
  rcases h2 42 hmem with h | ⟨v, hv, h⟩
  · revert h; decide
  · have hv2 : v = { addr := 201, type := 1, str_val := some 301 }
        ∨ v = { addr := 203, type := 4, str_val := some 42 } := by
      simpa [sample_record, sample_lib] using hv
    rcases hv2 with rfl | rfl
    · revert h; decide
    · revert h; decide

/-- With five records, record number 5 and record number -1 are rejected and
record number 4 is retrieved. -/
theorem retrieve_record_out_of_range_witness :
    (pxlib_retrieve_record (range_checked sample_lib) (some sample_doc) 5 []).1 = none
    ∧ (pxlib_retrieve_record (range_checked sample_lib) (some sample_doc) (-1) []).1 = none
    ∧ (pxlib_retrieve_record (range_checked sample_lib) (some sample_doc) 4 []).1
        = some sample_record :=
  ⟨(retrieve_record_out_of_range sample_lib sample_doc []).2.2 5 (Or.inr (by decide)),
    (retrieve_record_out_of_range sample_lib sample_doc []).1, by decide⟩

end PxBridge
